import Mathlib

/-!
# Verification of the Davix H2I n8n node

Shallow embedding of `src/nodes/DavixH2I/DavixH2I.node.ts` and
`src/unnamed/part_000` (the `GenericFunctions` module exporting
`davixRequest` and `downloadToBinary`).

Modelling conventions:
* JS numbers are modelled as `Int`; every claim under consideration only
  exercises integer-valued numeric parameters, and `String(v)` on an integer
  JS number agrees with `toString : Int → String`.
* JSON values (API responses, the h2i request body) are the inductive `JVal`.
* A multipart form (`formData` in the source) is an association list with
  JS-object assignment semantics (`fdSet` overwrites an existing key in
  place, otherwise appends).
* The n8n host helpers (`getNodeParameter`, `getBinaryDataBuffer`,
  `helpers.request`, `prepareBinaryData`) are outside the repository.
  `getNodeParameter` is modelled by per-item parameter records typed
  according to the node's declared UI schema (the host returns the declared
  default when the user left a field untouched); `getBinaryDataBuffer` by a
  lookup in the item's binary map that fails when the property is missing;
  the network by oracles `respond` / `download` in an `Env` record.
* Fallible code returns `Except String`; an `.error` short-circuits, so the
  request/download traces accumulated by `processItem` record exactly the
  HTTP calls the node would have issued.
-/

namespace DavixH2I

/-! ## String primitives

The JS string methods the source uses (`endsWith`, `slice`, `startsWith`,
`split`, `trim`, `join`) are modelled by structurally recursive functions
over `List Char`, so that concrete runs reduce inside the kernel. -/

/-- JS `url.endsWith('/')`: the last character is `/`. -/
def endsWithSlash (s : String) : Bool :=
  s.toList.getLast? = some '/'

/-- JS `url.slice(0, -1)`: drop the last character. -/
def dropLastChar (s : String) : String :=
  s.toList.dropLast.asString

/-- JS `path.startsWith('/')`: the first character is `/`. -/
def startsWithSlash (s : String) : Bool :=
  s.toList.head? = some '/'

/-- ASCII whitespace for JS `s.trim()` (the source only trims around
user-typed property names). -/
def isSpaceChar (c : Char) : Bool :=
  c = ' ' ∨ c = '\t' ∨ c = '\n' ∨ c = '\r'

/-- JS `s.trim()`. -/
def jsTrim (s : String) : String :=
  (((s.toList.dropWhile isSpaceChar).reverse.dropWhile isSpaceChar).reverse).asString

/-- JS `s.split(',')`: the comma-separated pieces; splitting the empty
string yields `[""]`. -/
def splitOnCommaChars : List Char → List (List Char)
  | [] => [[]]
  | c :: cs =>
    let r := splitOnCommaChars cs
    if c = ',' then [] :: r
    else
      match r with
      | g :: gs => (c :: g) :: gs
      | [] => [[c]]

/-- JS `s.split(',')` on strings. -/
def jsSplitComma (s : String) : List String :=
  (splitOnCommaChars s.toList).map (fun g => g.asString)

/-- JS `xs.join(',')`. -/
def joinComma : List String → String
  | [] => ""
  | [s] => s
  | s :: rest => s ++ "," ++ joinComma rest

/-- JSON-like JS values, used for API responses and JSON request bodies.
Numbers are restricted to integers (see the module conventions). -/
inductive JVal where
  | str  (s : String)
  | num  (n : Int)
  | bool (b : Bool)
  | null
  | arr  (xs : List JVal)
  | obj  (fields : List (String × JVal))

/-- JS truthiness of a `JVal` (`if (v)` in the source). -/
def truthy : JVal → Bool
  | .str s  => s ≠ ""
  | .num n  => n ≠ 0
  | .bool b => b
  | .null   => false
  | .arr _  => true
  | .obj _  => true

mutual

/-- JS `String(v)` conversion on the values `JVal` can hold. For arrays JS
uses `join(",")`; objects stringify to `"[object Object]"`. -/
def jsToString : JVal → String
  | .str s  => s
  | .num n  => toString n
  | .bool b => if b then "true" else "false"
  | .null   => "null"
  | .arr xs => joinComma (jsToStringList xs)
  | .obj _  => "[object Object]"

/-- Elementwise `String(·)` over a JS array's contents. -/
def jsToStringList : List JVal → List String
  | [] => []
  | x :: xs => jsToString x :: jsToStringList xs

end

/-- JS property access `v?.k` / `v.k`: field lookup on objects; `none` models
`undefined` (absent key or non-object receiver, including the `?.`
short-circuit on `null`). -/
def lookupField : JVal → String → Option JVal
  | .obj fs, k => (fs.find? (fun p => p.1 = k)).map (fun p => p.2)
  | _, _ => none

/-- A multipart file part: an opaque byte buffer plus the `options`
(`filename`, `contentType`) the source attaches to it. -/
structure FilePart where
  data : String
  filename : String
  contentType : Option String
  deriving Repr, DecidableEq

/-- A value stored in the `formData` record: a plain string field, a single
file part (`attachSingleFile`), or an array of file parts (`attachFiles`). -/
inductive FormVal where
  | str (s : String)
  | filePart (p : FilePart)
  | fileParts (ps : List FilePart)
  deriving Repr, DecidableEq

/-- The `formData` object: insertion-ordered string-keyed JS object. -/
abbrev FormData := List (String × FormVal)

/-- JS object read `formData[k]`. -/
def fdGet : FormData → String → Option FormVal
  | [], _ => none
  | (k', v') :: rest, k => if k' = k then some v' else fdGet rest k

/-- JS object write `formData[k] = v`: overwrite the value in place if the
key exists (keeping its insertion position), otherwise append. The lists
built here are duplicate-free, so replacing the first occurrence is the JS
object semantics. -/
def fdSet : FormData → String → FormVal → FormData
  | [], k, v => [(k, v)]
  | (k', v') :: rest, k, v =>
    if k' = k then (k, v) :: rest else (k', v') :: fdSet rest k v

/-- `formData[k] = formData[k] || []; formData[k].push(part)`. In the source
these keys only ever hold part arrays (or are absent) when pushed to. -/
def fdPushFile (fd : FormData) (k : String) (p : FilePart) : FormData :=
  let cur := match fdGet fd k with
    | some (.fileParts ps) => ps
    | _ => []
  fdSet fd k (.fileParts (cur ++ [p]))

/-- The file parts stored under key `k`, `[]` when absent. -/
def fdParts (fd : FormData) (k : String) : List FilePart :=
  match fdGet fd k with
  | some (.fileParts ps) => ps
  | _ => []

/-! ## GenericFunctions (`src/unnamed/part_000`) -/

/-- `stripTrailingSlash`: drop a single trailing `/`. -/
def stripTrailingSlash (url : String) : String :=
  if endsWithSlash url then dropLastChar url else url

/-- `ensureLeadingSlash`: empty paths become `/`; otherwise prepend `/`
unless already present. -/
def ensureLeadingSlash (path : String) : String :=
  if path = "" then "/"
  else if startsWithSlash path then path else "/" ++ path

/-- The `davixH2IApi` credential record. The source coerces both fields with
`String(creds.x || '')`; we model them as strings directly. -/
structure Creds where
  baseUrl : String
  apiKey : String

/-- The request body variants the node produces: a JSON body (h2i) or a
multipart form (image/pdf/tools). -/
inductive ReqBody where
  | jsonBody (v : JVal)
  | form (fd : FormData)
  | empty

/-- `IHttpRequestOptions` as the node uses them: method, url (relative
before `davixRequest`, absolute after), headers and body. -/
structure HttpRequestOptions where
  method : String
  url : String
  headers : List (String × String) := []
  body : ReqBody := .empty

/-- `davixRequest`: validate credentials, absolutize the url and attach the
`x-api-key` header. `.ok` carries the request handed to `helpers.request`;
`.error` means the function threw before any HTTP call. -/
def davixRequest (creds : Creds) (options : HttpRequestOptions) :
    Except String HttpRequestOptions :=
  let baseUrl := stripTrailingSlash creds.baseUrl
  let apiKey := creds.apiKey
  if baseUrl = "" then .error "Missing Base URL in credentials."
  else if apiKey = "" then .error "Missing API Key in credentials."
  else .ok { options with
              url := baseUrl ++ ensureLeadingSlash options.url,
              headers := options.headers ++ [("x-api-key", apiKey)] }

/-- Result of `downloadToBinary` (a GET of `url` returning the body buffer
and the response `content-type`). The network is an oracle in `Env`. -/
structure DownloadResult where
  data : String
  mimeType : Option String

/-! ## Node-level helpers (`DavixH2I.node.ts`) -/

/-- Argument type of `toBoolString(v: unknown)`: the JS primitive kinds the
function distinguishes. -/
inductive JsPrim where
  | bool (b : Bool)
  | num (n : Int)
  | str (s : String)
  | other

/-- `toBoolString` (lines 45–50). -/
def toBoolString : JsPrim → String
  | .bool v => if v then "true" else "false"
  | .num v => if v = 1 then "true" else "false"
  | .str v => v
  | .other => "false"

/-- One iteration body of `gatherFirstUrl`'s loop: `if (r?.url) return
String(r.url)`. `none` when the entry's `url` is absent or falsy. -/
def resultEntryUrl (r : JVal) : Option String :=
  match lookupField r "url" with
  | some v => if truthy v then some (jsToString v) else none
  | none => none

/-- The second loop check `if (typeof r === 'string') return r`: a
plain-string entry short-circuits, anything else continues with the rest of
the loop. -/
def resultEntryFallback (r : JVal) (rest : Option String) : Option String :=
  match r with
  | .str s => some s
  | _ => rest

/-- The loop of `gatherFirstUrl` over `response.results`: first entry with a
truthy `url` wins, else a plain-string entry is returned as-is. -/
def firstFromResults : List JVal → Option String
  | [] => none
  | r :: rs =>
    match resultEntryUrl r with
    | some s => some s
    | none => resultEntryFallback r (firstFromResults rs)

/-- `gatherFirstUrl` (lines 899–908): a string `response.url` wins, else the
first usable entry of `response.results`. -/
def gatherFirstUrl (response : JVal) : Option String :=
  match lookupField response "url" with
  | some (.str s) => some s
  | _ =>
    match lookupField response "results" with
    | some (.arr rs) => firstFromResults rs
    | _ => none

/-- The shared download guard in all three download branches:
`const firstUrl = gatherFirstUrl(response); if (!firstUrl) throw new
Error('No URL returned to download.')`. JS `!firstUrl` is true for both
`undefined` and the empty string. -/
def requireFirstUrl (response : JVal) : Except String String :=
  match gatherFirstUrl response with
  | some u => if u = "" then .error "No URL returned to download." else .ok u
  | none => .error "No URL returned to download."

/-- A named binary buffer attached to an input item: the buffer contents
plus the optional `fileName`/`mimeType` metadata of `IBinaryData`. -/
structure BinaryEntry where
  data : String
  fileName : Option String := none
  mimeType : Option String := none

/-- An item's `binary` map. -/
abbrev BinaryMap := List (String × BinaryEntry)

/-- Lookup `items[itemIndex].binary?.[name]`. -/
def lookupBinary (binary : BinaryMap) (name : String) : Option BinaryEntry :=
  (binary.find? (fun p => p.1 = name)).map (fun p => p.2)

/-- The name list computed at the head of `attachFiles`:
`propList.split(',').map(s => s.trim()).filter(Boolean)`. -/
def splitNames (propList : String) : List String :=
  ((jsSplitComma propList).map jsTrim).filter (fun s => s ≠ "")

/-- The file part `attachFiles` pushes for one resolved name. -/
def mkFilePart (fieldName name : String) (e : BinaryEntry) : FilePart :=
  { data := e.data,
    filename := e.fileName.getD (fieldName ++ "-" ++ name),
    contentType := e.mimeType }

/-- The `for (const name of names)` loop of `attachFiles`.
`helpers.getBinaryDataBuffer` (host helper) throws when the named binary
property does not exist on the item; that host error is modelled by the
`.error` branch. -/
def attachNamed (fieldName : String) (binary : BinaryMap) :
    List String → FormData → Except String FormData
  | [], fd => .ok fd
  | name :: rest, fd =>
    match lookupBinary binary name with
    | none => .error ("No binary data found for property: " ++ name)
    | some e =>
      attachNamed fieldName binary rest
        (fdPushFile fd fieldName (mkFilePart fieldName name e))

/-- `attachFiles` (lines 910–937): split the comma-separated property list,
reject an empty selection, then push one file part per name under
`fieldName`. -/
def attachFiles (fieldName : String) (propList : String) (binary : BinaryMap)
    (fd : FormData) : Except String FormData :=
  let names := splitNames propList
  if names.length = 0 then .error "No binary property names provided."
  else attachNamed fieldName binary names fd

/-- `attachSingleFile` (lines 939–949): no-op on an empty property name,
else store a single file part under `fieldName`. -/
def attachSingleFile (fieldName propName : String) (binary : BinaryMap)
    (fd : FormData) : Except String FormData :=
  if propName = "" then .ok fd
  else
    match lookupBinary binary propName with
    | none => .error ("No binary data found for property: " ++ propName)
    | some e =>
      .ok (fdSet fd fieldName (.filePart
        { data := e.data,
          filename := e.fileName.getD fieldName,
          contentType := e.mimeType }))

/-- `setNumber` (declared identically in the image, pdf and tools branches,
lines 1006–1008, 1224–1226, 1342–1344): include the field as `String(value)`
only when the value is neither `undefined`/`null` nor `0`. Parameters are
always present in the model, so the test reduces to `value ≠ 0`. -/
def setNumber (fd : FormData) (name : String) (value : Int) : FormData :=
  if value ≠ 0 then fdSet fd name (.str (toString value)) else fd

/-- `setString` (image branch checks `!== undefined && !== null && !== ''`,
pdf/tools branches check truthiness; on strings both mean "nonempty"). -/
def setString (fd : FormData) (name : String) (value : String) : FormData :=
  if value ≠ "" then fdSet fd name (.str value) else fd

/-- `setBool`: always include the flag, serialized through `toBoolString`. -/
def setBool (fd : FormData) (name : String) (value : Bool) : FormData :=
  fdSet fd name (.str (toBoolString (.bool value)))

/-! ## Action enums (the `Resource`, `H2iAction`, `ImageAction`, `PdfAction`
and `ToolsAction` string-literal union types of the source) -/

/-- `type H2iAction = 'image' | 'pdf'`. -/
inductive H2iAction where
  | image | pdf
  deriving DecidableEq, Repr

/-- `type ImageAction`. -/
inductive ImageAction where
  | format | resize | crop | transform | compress | enhance | padding
  | frame | background | watermark | pdf | metadata | multitask
  deriving DecidableEq, Repr

/-- `type PdfAction` (`to-images`, `extract-images` and `delete-pages` are
spelled `toImages`, `extractImages`, `deletePages`). -/
inductive PdfAction where
  | toImages | merge | split | compress | extractImages | watermark
  | rotate | metadata | reorder | deletePages | extract | flatten
  | encrypt | decrypt
  deriving DecidableEq, Repr

/-- `type ToolsAction = 'single' | 'multitask'`. -/
inductive ToolsAction where
  | single | multitask
  deriving DecidableEq, Repr

/-- The string the node sends as `action` for an h2i operation. -/
def H2iAction.toActionString : H2iAction → String
  | .image => "image"
  | .pdf => "pdf"

/-- The string the node sends as `action` for an image operation. -/
def ImageAction.toActionString : ImageAction → String
  | .format => "format" | .resize => "resize" | .crop => "crop"
  | .transform => "transform" | .compress => "compress"
  | .enhance => "enhance" | .padding => "padding" | .frame => "frame"
  | .background => "background" | .watermark => "watermark"
  | .pdf => "pdf" | .metadata => "metadata" | .multitask => "multitask"

/-- The string the node sends as `action` for a pdf operation. -/
def PdfAction.toActionString : PdfAction → String
  | .toImages => "to-images" | .merge => "merge" | .split => "split"
  | .compress => "compress" | .extractImages => "extract-images"
  | .watermark => "watermark" | .rotate => "rotate"
  | .metadata => "metadata" | .reorder => "reorder"
  | .deletePages => "delete-pages" | .extract => "extract"
  | .flatten => "flatten" | .encrypt => "encrypt" | .decrypt => "decrypt"

/-- The string the node sends as `action` for a tools operation. -/
def ToolsAction.toActionString : ToolsAction → String
  | .single => "single"
  | .multitask => "multitask"

/-! ## Per-item parameter records

`getNodeParameter(name, itemIndex)` reads the user-configured value of a
declared UI field, falling back to the field's declared default. We model
this by per-resource records whose field defaults are the UI defaults.
Numeric fields are `Int` (exception: `watermarkOpacity`, declared default
0.35, is given model default 0 — no settled claim touches its default). -/

/-- Parameters read by the h2i branch (lines 952–993). -/
structure H2iParams where
  html : String := ""
  css : String := ""
  width : Int := 1000
  height : Int := 1500
  format : String := "png"
  h2iPdfPageSize : String := "auto"
  h2iPdfOrientation : String := "portrait"
  h2iPdfMargin : Int := 0
  h2iPdfEmbedFormat : String := "png"
  h2iPdfJpegQuality : Int := 85
  downloadBinary : Bool := false
  outputBinaryProperty : String := "data"

/-- The `options` fixed collection of the image `multitask` operation:
`hasVal(k)` is `isSome`, `getOpt(k)` the payload, typed by the declared
UI schema of each collection entry. -/
structure MultitaskOptions where
  format : Option String := none
  width : Option Int := none
  height : Option Int := none
  enlarge : Option Bool := none
  normalizeOrientation : Option Bool := none
  cropX : Option Int := none
  cropY : Option Int := none
  cropWidth : Option Int := none
  cropHeight : Option Int := none
  backgroundColor : Option String := none
  rotate : Option Int := none
  flipH : Option Bool := none
  flipV : Option Bool := none
  colorSpace : Option String := none
  targetSizeKB : Option Int := none
  quality : Option Int := none
  keepMetadata : Option Bool := none
  blur : Option Int := none
  sharpen : Option Int := none
  grayscale : Option Bool := none
  sepia : Option Bool := none
  brightness : Option Int := none
  contrast : Option Int := none
  saturation : Option Int := none
  pad : Option Int := none
  padTop : Option Int := none
  padRight : Option Int := none
  padBottom : Option Int := none
  padLeft : Option Int := none
  padColor : Option String := none
  borderRadius : Option Int := none
  border : Option Int := none
  borderColor : Option String := none
  backgroundBlur : Option Int := none
  watermarkText : Option String := none
  watermarkFontSize : Option Int := none
  watermarkColor : Option String := none
  watermarkOpacity : Option Int := none
  watermarkPosition : Option String := none
  watermarkMargin : Option Int := none
  watermarkScale : Option Int := none
  pdfMode : Option String := none
  pdfPageSize : Option String := none
  pdfOrientation : Option String := none
  pdfMargin : Option Int := none
  pdfEmbedFormat : Option String := none
  pdfJpegQuality : Option Int := none
  includeRawExif : Option Bool := none

/-- Parameters read by the image branch (lines 998–1213). -/
structure ImageParams where
  imageBinaryProps : String := "data"
  imageFormat : String := "webp"
  imageWidth : Int := 0
  imageHeight : Int := 0
  enlarge : Bool := false
  normalizeOrientation : Bool := false
  cropX : Int := 0
  cropY : Int := 0
  cropWidth : Int := 0
  cropHeight : Int := 0
  backgroundColor : String := ""
  rotate : Int := 0
  flipH : Bool := false
  flipV : Bool := false
  colorSpace : String := "srgb"
  targetSizeKB : Int := 0
  quality : Int := 82
  keepMetadata : Bool := false
  blur : Int := 0
  sharpen : Int := 0
  grayscale : Bool := false
  sepia : Bool := false
  brightness : Int := 0
  contrast : Int := 0
  saturation : Int := 0
  pad : Int := 0
  padTop : Int := 0
  padRight : Int := 0
  padBottom : Int := 0
  padLeft : Int := 0
  padColor : String := ""
  border : Int := 0
  borderColor : String := ""
  borderRadius : Int := 0
  backgroundBlur : Int := 0
  watermarkText : String := ""
  watermarkFontSize : Int := 24
  watermarkColor : String := "#000000"
  watermarkOpacity : Int := 0
  watermarkPosition : String := "center"
  watermarkMargin : Int := 8
  watermarkScale : Int := 1
  watermarkImageBinaryProp : String := ""
  includeRawExif : Bool := false
  options : MultitaskOptions := {}
  watermarkBinaryProperty : String := ""
  pdfMode : String := "single"
  pdfPageSize : String := "auto"
  pdfOrientation : String := "portrait"
  pdfMargin : Int := 0
  pdfEmbedFormat : String := "png"
  pdfJpegQuality : Int := 85
  imageDownloadBinary : Bool := false
  imageOutputBinaryProperty : String := "data"

/-- Parameters read by the pdf branch (lines 1217–1329). The source's
`prefix` parameter is named `filePrefix` here. -/
structure PdfParams where
  pdfBinaryProps : String := "data"
  sortByName : Bool := false
  ranges : String := ""
  filePrefix : String := "split_"
  pages : String := "all"
  toFormat : String := "png"
  pdfWidth : Int := 0
  pdfHeight : Int := 0
  dpi : Int := 150
  extractImageFormat : String := "png"
  watermarkText : String := ""
  watermarkOpacity : Int := 0
  watermarkPosition : String := "center"
  watermarkMargin : Int := 8
  watermarkFontSize : Int := 24
  watermarkColor : String := "#000000"
  watermarkScale : Int := 1
  watermarkImageBinaryProp : String := ""
  degrees : Int := 0
  title : String := ""
  author : String := ""
  subject : String := ""
  keywords : String := ""
  creator : String := ""
  producer : String := ""
  cleanAllMetadata : Bool := false
  order : String := ""
  mode : String := "range"
  userPassword : String := ""
  ownerPassword : String := ""
  password : String := ""
  flattenForms : Bool := false
  pdfDownloadBinary : Bool := false
  pdfOutputBinaryProperty : String := "data"

/-- The tools `options` collection. -/
structure ToolsOptions where
  includeRawExif : Option Bool := none
  paletteSize : Option Int := none
  hashType : Option String := none
  similarityMode : Option String := none
  similarityThreshold : Option Int := none
  qualitySample : Option Int := none
  transparencySample : Option Int := none
  efficiencyFormat : Option String := none
  efficiencyQuality : Option Int := none

/-- Parameters read by the tools branch (lines 1333–1404). -/
structure ToolsParams where
  toolsBinaryProps : String := "data"
  tool : String := "metadata"
  tools : List String := ["metadata"]
  options : ToolsOptions := {}

/-! ## Request assembly (the `execute` dispatcher) -/

/-- `if (hasVal(k)) setNumber(k, Number(getOpt(k)))`. -/
def optNumber (fd : FormData) (name : String) : Option Int → FormData
  | some v => setNumber fd name v
  | none => fd

/-- `if (hasVal(k)) setString(k, String(getOpt(k)))`. -/
def optString (fd : FormData) (name : String) : Option String → FormData
  | some v => setString fd name v
  | none => fd

/-- `if (hasVal(k)) setBool(k, Boolean(getOpt(k)))`. -/
def optBool (fd : FormData) (name : String) : Option Bool → FormData
  | some v => setBool fd name v
  | none => fd

/-- `if (hasVal(k)) formData[k] = String(getOpt(k))` (unconditional set). -/
def optRawString (fd : FormData) (name : String) : Option String → FormData
  | some v => fdSet fd name (.str v)
  | none => fd

/-- The h2i JSON `body` (lines 954–970), in source insertion order. -/
def buildH2iBody (a : H2iAction) (p : H2iParams) : JVal :=
  match a with
  | .image =>
    .obj [("action", .str "image"), ("html", .str p.html),
          ("css", .str p.css), ("width", .num p.width),
          ("height", .num p.height), ("format", .str p.format)]
  | .pdf =>
    .obj [("action", .str "pdf"), ("html", .str p.html),
          ("css", .str p.css), ("width", .num p.width),
          ("height", .num p.height),
          ("pdfPageSize", .str p.h2iPdfPageSize),
          ("pdfOrientation", .str p.h2iPdfOrientation),
          ("pdfMargin", .num p.h2iPdfMargin),
          ("pdfEmbedFormat", .str p.h2iPdfEmbedFormat),
          ("pdfJpegQuality", .num p.h2iPdfJpegQuality)]

/-- `includePdfFields` (lines 1016–1023). -/
def includePdfFields (p : ImageParams) (fd : FormData) : FormData :=
  let fd := fdSet fd "pdfMode" (.str p.pdfMode)
  let fd := fdSet fd "pdfPageSize" (.str p.pdfPageSize)
  let fd := fdSet fd "pdfOrientation" (.str p.pdfOrientation)
  let fd := setNumber fd "pdfMargin" p.pdfMargin
  let fd := fdSet fd "pdfEmbedFormat" (.str p.pdfEmbedFormat)
  setNumber fd "pdfJpegQuality" p.pdfJpegQuality

/-- `includeWatermarkFile` (lines 1025–1027): attach the watermark image
only when a property name was given. -/
def includeWatermarkFile (propName : String) (binary : BinaryMap)
    (fd : FormData) : Except String FormData :=
  if propName ≠ "" then attachSingleFile "watermarkImage" propName binary fd
  else .ok fd

/-- The `switch (action)` of the image branch applied after the files are
attached (lines 1029–1191). -/
def imageActionFields (a : ImageAction) (p : ImageParams) (binary : BinaryMap)
    (fd : FormData) : Except String FormData :=
  let format := p.imageFormat
  match a with
  | .format =>
    let fd := fdSet fd "format" (.str format)
    let fd := setBool fd "keepMetadata" p.keepMetadata
    let fd := setNumber fd "width" p.imageWidth
    .ok (setNumber fd "height" p.imageHeight)
  | .resize =>
    let fd := fdSet fd "format" (.str format)
    let fd := setNumber fd "width" p.imageWidth
    let fd := setNumber fd "height" p.imageHeight
    let fd := setBool fd "enlarge" p.enlarge
    let fd := setBool fd "normalizeOrientation" p.normalizeOrientation
    .ok (setBool fd "keepMetadata" p.keepMetadata)
  | .crop =>
    let fd := fdSet fd "format" (.str format)
    let fd := setNumber fd "cropX" p.cropX
    let fd := setNumber fd "cropY" p.cropY
    let fd := setNumber fd "cropWidth" p.cropWidth
    let fd := setNumber fd "cropHeight" p.cropHeight
    let fd := setBool fd "normalizeOrientation" p.normalizeOrientation
    let fd := setString fd "backgroundColor" p.backgroundColor
    .ok (setBool fd "keepMetadata" p.keepMetadata)
  | .transform =>
    let fd := fdSet fd "format" (.str format)
    let fd := setNumber fd "rotate" p.rotate
    let fd := setBool fd "flipH" p.flipH
    let fd := setBool fd "flipV" p.flipV
    let fd := fdSet fd "colorSpace" (.str p.colorSpace)
    .ok (setBool fd "keepMetadata" p.keepMetadata)
  | .compress =>
    let fd := fdSet fd "format" (.str format)
    let fd := setNumber fd "targetSizeKB" p.targetSizeKB
    let fd := setNumber fd "quality" p.quality
    let fd := fdSet fd "colorSpace" (.str p.colorSpace)
    let fd := setString fd "backgroundColor" p.backgroundColor
    .ok (setBool fd "keepMetadata" p.keepMetadata)
  | .enhance =>
    let fd := fdSet fd "format" (.str format)
    let fd := setNumber fd "blur" p.blur
    let fd := setNumber fd "sharpen" p.sharpen
    let fd := setBool fd "grayscale" p.grayscale
    let fd := setBool fd "sepia" p.sepia
    let fd := setNumber fd "brightness" p.brightness
    let fd := setNumber fd "contrast" p.contrast
    let fd := setNumber fd "saturation" p.saturation
    let fd := setBool fd "normalizeOrientation" p.normalizeOrientation
    .ok (setBool fd "keepMetadata" p.keepMetadata)
  | .padding =>
    let fd := fdSet fd "format" (.str format)
    let fd := setNumber fd "pad" p.pad
    let fd :=
      if p.padTop ≠ 0 ∨ p.padRight ≠ 0 ∨ p.padBottom ≠ 0 ∨ p.padLeft ≠ 0 then
        let fd := setNumber fd "padTop" p.padTop
        let fd := setNumber fd "padRight" p.padRight
        let fd := setNumber fd "padBottom" p.padBottom
        setNumber fd "padLeft" p.padLeft
      else fd
    let fd := setString fd "padColor" p.padColor
    let fd := setNumber fd "borderRadius" p.borderRadius
    .ok (setBool fd "keepMetadata" p.keepMetadata)
  | .frame =>
    let fd := fdSet fd "format" (.str format)
    let fd := setNumber fd "border" p.border
    let fd := setString fd "borderColor" p.borderColor
    let fd := setNumber fd "pad" p.pad
    let fd := setString fd "padColor" p.padColor
    .ok (setBool fd "keepMetadata" p.keepMetadata)
  | .background =>
    let fd := fdSet fd "format" (.str format)
    let fd := setString fd "backgroundColor" p.backgroundColor
    let fd := setNumber fd "backgroundBlur" p.backgroundBlur
    let fd := setNumber fd "borderRadius" p.borderRadius
    let fd := setString fd "padColor" p.padColor
    .ok (setBool fd "keepMetadata" p.keepMetadata)
  | .watermark =>
    let fd := fdSet fd "format" (.str format)
    let fd := setString fd "watermarkText" p.watermarkText
    let fd := setNumber fd "watermarkFontSize" p.watermarkFontSize
    let fd := setString fd "watermarkColor" p.watermarkColor
    let fd := setNumber fd "watermarkOpacity" p.watermarkOpacity
    let fd := fdSet fd "watermarkPosition" (.str p.watermarkPosition)
    let fd := setNumber fd "watermarkMargin" p.watermarkMargin
    let fd := setNumber fd "watermarkScale" p.watermarkScale
    match includeWatermarkFile p.watermarkImageBinaryProp binary fd with
    | .error e => .error e
    | .ok fd => .ok (setBool fd "keepMetadata" p.keepMetadata)
  | .pdf =>
    let fd := fdSet fd "format" (.str "pdf")
    let fd := includePdfFields p fd
    .ok (setBool fd "keepMetadata" p.keepMetadata)
  | .metadata =>
    let fd := setBool fd "normalizeOrientation" p.normalizeOrientation
    let fd := setBool fd "keepMetadata" p.keepMetadata
    .ok (setBool fd "includeRawExif" p.includeRawExif)
  | .multitask =>
    let o := p.options
    let fd := optString fd "format" o.format
    let fd := optNumber fd "width" o.width
    let fd := optNumber fd "height" o.height
    let fd := optBool fd "enlarge" o.enlarge
    let fd := optBool fd "normalizeOrientation" o.normalizeOrientation
    let fd := optNumber fd "cropX" o.cropX
    let fd := optNumber fd "cropY" o.cropY
    let fd := optNumber fd "cropWidth" o.cropWidth
    let fd := optNumber fd "cropHeight" o.cropHeight
    let fd := optString fd "backgroundColor" o.backgroundColor
    let fd := optNumber fd "rotate" o.rotate
    let fd := optBool fd "flipH" o.flipH
    let fd := optBool fd "flipV" o.flipV
    let fd := optRawString fd "colorSpace" o.colorSpace
    let fd := optNumber fd "targetSizeKB" o.targetSizeKB
    let fd := optNumber fd "quality" o.quality
    let fd := optBool fd "keepMetadata" o.keepMetadata
    let fd := optNumber fd "blur" o.blur
    let fd := optNumber fd "sharpen" o.sharpen
    let fd := optBool fd "grayscale" o.grayscale
    let fd := optBool fd "sepia" o.sepia
    let fd := optNumber fd "brightness" o.brightness
    let fd := optNumber fd "contrast" o.contrast
    let fd := optNumber fd "saturation" o.saturation
    let fd := optNumber fd "pad" o.pad
    let fd := optNumber fd "padTop" o.padTop
    let fd := optNumber fd "padRight" o.padRight
    let fd := optNumber fd "padBottom" o.padBottom
    let fd := optNumber fd "padLeft" o.padLeft
    let fd := optString fd "padColor" o.padColor
    let fd := optNumber fd "borderRadius" o.borderRadius
    let fd := optNumber fd "border" o.border
    let fd := optString fd "borderColor" o.borderColor
    let fd := optNumber fd "backgroundBlur" o.backgroundBlur
    let fd := optString fd "watermarkText" o.watermarkText
    let fd := optNumber fd "watermarkFontSize" o.watermarkFontSize
    let fd := optString fd "watermarkColor" o.watermarkColor
    let fd := optNumber fd "watermarkOpacity" o.watermarkOpacity
    let fd := optRawString fd "watermarkPosition" o.watermarkPosition
    let fd := optNumber fd "watermarkMargin" o.watermarkMargin
    let fd := optNumber fd "watermarkScale" o.watermarkScale
    let fd := optRawString fd "pdfMode" o.pdfMode
    let fd := optRawString fd "pdfPageSize" o.pdfPageSize
    let fd := optRawString fd "pdfOrientation" o.pdfOrientation
    let fd := optNumber fd "pdfMargin" o.pdfMargin
    let fd := optRawString fd "pdfEmbedFormat" o.pdfEmbedFormat
    let fd := optNumber fd "pdfJpegQuality" o.pdfJpegQuality
    let fd := optBool fd "includeRawExif" o.includeRawExif
    if p.watermarkBinaryProperty ≠ "" then
      includeWatermarkFile p.watermarkBinaryProperty binary fd
    else .ok fd

/-- The full image `formData`: `{action}`, attached files, then the
action-specific fields. -/
def buildImageForm (a : ImageAction) (p : ImageParams) (binary : BinaryMap) :
    Except String FormData :=
  let fd : FormData := [("action", .str a.toActionString)]
  match attachFiles "images" p.imageBinaryProps binary fd with
  | .error e => .error e
  | .ok fd => imageActionFields a p binary fd

/-- The pdf branch's action-specific fields (sequential `if` blocks,
lines 1234–1308; `compress` adds nothing). -/
def pdfActionFields (a : PdfAction) (p : PdfParams) (binary : BinaryMap)
    (fd : FormData) : Except String FormData :=
  match a with
  | .merge => .ok (setBool fd "sortByName" p.sortByName)
  | .split =>
    let fd := setString fd "ranges" p.ranges
    .ok (setString fd "prefix" p.filePrefix)
  | .toImages =>
    let fd := setString fd "pages" p.pages
    let fd := setString fd "toFormat" p.toFormat
    let fd := setNumber fd "width" p.pdfWidth
    let fd := setNumber fd "height" p.pdfHeight
    .ok (setNumber fd "dpi" p.dpi)
  | .extractImages =>
    let fd := setString fd "pages" p.pages
    .ok (setString fd "imageFormat" p.extractImageFormat)
  | .watermark =>
    let fd := setString fd "pages" p.pages
    let fd := setString fd "watermarkText" p.watermarkText
    let fd := setNumber fd "watermarkOpacity" p.watermarkOpacity
    let fd := setString fd "watermarkPosition" p.watermarkPosition
    let fd := setNumber fd "watermarkMargin" p.watermarkMargin
    let fd := setNumber fd "watermarkFontSize" p.watermarkFontSize
    let fd := setString fd "watermarkColor" p.watermarkColor
    let fd := setNumber fd "watermarkScale" p.watermarkScale
    attachSingleFile "watermarkImage" p.watermarkImageBinaryProp binary fd
  | .rotate =>
    let fd := setNumber fd "degrees" p.degrees
    .ok (setString fd "pages" p.pages)
  | .metadata =>
    let fd := setString fd "title" p.title
    let fd := setString fd "author" p.author
    let fd := setString fd "subject" p.subject
    let fd := setString fd "keywords" p.keywords
    let fd := setString fd "creator" p.creator
    let fd := setString fd "producer" p.producer
    .ok (setBool fd "cleanAllMetadata" p.cleanAllMetadata)
  | .reorder => .ok (setString fd "order" p.order)
  | .deletePages => .ok (setString fd "pages" p.pages)
  | .extract =>
    let fd := setString fd "pages" p.pages
    let fd := setString fd "mode" p.mode
    .ok (setString fd "prefix" p.filePrefix)
  | .flatten => .ok (setBool fd "flattenForms" p.flattenForms)
  | .encrypt =>
    let fd := setString fd "userPassword" p.userPassword
    .ok (setString fd "ownerPassword" p.ownerPassword)
  | .decrypt => .ok (setString fd "password" p.password)
  | .compress => .ok fd

/-- The full pdf `formData`. -/
def buildPdfForm (a : PdfAction) (p : PdfParams) (binary : BinaryMap) :
    Except String FormData :=
  let fd : FormData := [("action", .str a.toActionString)]
  match attachFiles "files" p.pdfBinaryProps binary fd with
  | .error e => .error e
  | .ok fd => pdfActionFields a p binary fd

/-- The per-tool option blocks of the tools branch (lines 1366–1394). -/
def applyToolOptions (selectedTools : List String) (o : ToolsOptions)
    (fd : FormData) : FormData :=
  let fd := if selectedTools.contains "metadata" then
      optBool fd "includeRawExif" o.includeRawExif else fd
  let fd := if selectedTools.contains "palette" then
      optNumber fd "paletteSize" o.paletteSize else fd
  let fd := if selectedTools.contains "hash" then
      optString fd "hashType" o.hashType else fd
  let fd := if selectedTools.contains "quality" then
      optNumber fd "qualitySample" o.qualitySample else fd
  let fd := if selectedTools.contains "transparency" then
      optNumber fd "transparencySample" o.transparencySample else fd
  let fd := if selectedTools.contains "similarity" then
      optNumber (optString fd "similarityMode" o.similarityMode)
        "similarityThreshold" o.similarityThreshold else fd
  if selectedTools.contains "efficiency" then
    optNumber (optString fd "efficiencyFormat" o.efficiencyFormat)
      "efficiencyQuality" o.efficiencyQuality
  else fd

/-- The full tools `formData`. -/
def buildToolsForm (a : ToolsAction) (p : ToolsParams) (binary : BinaryMap) :
    Except String FormData :=
  let fd : FormData := [("action", .str a.toActionString)]
  match attachFiles "images" p.toolsBinaryProps binary fd with
  | .error e => .error e
  | .ok fd =>
    match a with
    | .single =>
      if p.tool = "" then .error "Select one tool for single action."
      else
        let fd := fdSet fd "tools" (.str p.tool)
        .ok (applyToolOptions [p.tool] p.options fd)
    | .multitask =>
      let fd := fdSet fd "tools" (.str (joinComma p.tools))
      .ok (applyToolOptions p.tools p.options fd)

/-! ## Per-item execution -/

/-- The external world: credentials plus network oracles. `respond` gives
the JSON response `helpers.request` resolves an issued request to, and
`download` the body/content-type of the follow-up GET in
`downloadToBinary`. -/
structure Env where
  creds : Creds
  respond : HttpRequestOptions → JVal
  download : String → DownloadResult

/-- The result of `prepareBinaryData`: what the node stores under the
output binary property. -/
structure OutBinary where
  data : String
  fileName : String
  mimeType : Option String

/-- One entry of the node's output: the JSON response plus the optional
named binary. -/
structure OutputItem where
  json : JVal
  binary : Option (String × OutBinary) := none

/-- The externally visible HTTP activity of processing one item. -/
structure Trace where
  requests : List HttpRequestOptions := []
  downloads : List String := []

/-- The resource/operation selection plus the parameters the branch reads. -/
inductive ResourceCfg where
  | h2i (a : H2iAction) (p : H2iParams)
  | image (a : ImageAction) (p : ImageParams)
  | pdf (a : PdfAction) (p : PdfParams)
  | tools (a : ToolsAction) (p : ToolsParams)

/-- One input item: its configured parameters and its binary buffers. -/
structure ItemCfg where
  cfg : ResourceCfg
  binary : BinaryMap := []

/-- Download filename in the h2i branch (line 987). -/
def h2iFileName (a : H2iAction) (format : String) : String :=
  match a with
  | .pdf => "h2i.pdf"
  | .image => "h2i." ++ (if format = "jpeg" then "jpg" else format)

/-- The h2i branch (lines 952–995). -/
def processH2i (env : Env) (a : H2iAction) (p : H2iParams) :
    Trace × Except String OutputItem :=
  let opts : HttpRequestOptions :=
    { method := "POST", url := "/v1/h2i", body := .jsonBody (buildH2iBody a p) }
  match davixRequest env.creds opts with
  | .error e => (⟨[], []⟩, .error e)
  | .ok req =>
    let response := env.respond req
    if p.downloadBinary then
      match requireFirstUrl response with
      | .error e => (⟨[req], []⟩, .error e)
      | .ok firstUrl =>
        let dl := env.download firstUrl
        (⟨[req], [firstUrl]⟩,
         .ok { json := response,
               binary := some (p.outputBinaryProperty,
                 { data := dl.data, fileName := h2iFileName a p.format,
                   mimeType := dl.mimeType }) })
    else (⟨[req], []⟩, .ok { json := response })

/-- The image branch's effective download flag (line 1200):
`['metadata'].includes(action) ? false : imageDownloadBinary`. -/
def effectiveImageDownload (a : ImageAction) (flag : Bool) : Bool :=
  if a = .metadata then false else flag

/-- The image branch (lines 998–1213). -/
def processImage (env : Env) (a : ImageAction) (p : ImageParams)
    (binary : BinaryMap) : Trace × Except String OutputItem :=
  match buildImageForm a p binary with
  | .error e => (⟨[], []⟩, .error e)
  | .ok fd =>
    match davixRequest env.creds
        { method := "POST", url := "/v1/image", body := .form fd } with
    | .error e => (⟨[], []⟩, .error e)
    | .ok req =>
      let response := env.respond req
      if effectiveImageDownload a p.imageDownloadBinary then
        match requireFirstUrl response with
        | .error e => (⟨[req], []⟩, .error e)
        | .ok firstUrl =>
          let ext := if p.imageFormat = "jpeg" then "jpg" else p.imageFormat
          let dl := env.download firstUrl
          (⟨[req], [firstUrl]⟩,
           .ok { json := response,
                 binary := some (p.imageOutputBinaryProperty,
                   { data := dl.data, fileName := "pixlab-image." ++ ext,
                     mimeType := dl.mimeType }) })
      else (⟨[req], []⟩, .ok { json := response })

/-- The pdf branch (lines 1217–1330). -/
def processPdf (env : Env) (a : PdfAction) (p : PdfParams)
    (binary : BinaryMap) : Trace × Except String OutputItem :=
  match buildPdfForm a p binary with
  | .error e => (⟨[], []⟩, .error e)
  | .ok fd =>
    match davixRequest env.creds
        { method := "POST", url := "/v1/pdf", body := .form fd } with
    | .error e => (⟨[], []⟩, .error e)
    | .ok req =>
      let response := env.respond req
      if p.pdfDownloadBinary then
        match requireFirstUrl response with
        | .error e => (⟨[req], []⟩, .error e)
        | .ok firstUrl =>
          let dl := env.download firstUrl
          (⟨[req], [firstUrl]⟩,
           .ok { json := response,
                 binary := some (p.pdfOutputBinaryProperty,
                   { data := dl.data, fileName := "pixlab-pdf-result.bin",
                     mimeType := dl.mimeType }) })
      else (⟨[req], []⟩, .ok { json := response })

/-- The tools branch (lines 1333–1404): never downloads. -/
def processTools (env : Env) (a : ToolsAction) (p : ToolsParams)
    (binary : BinaryMap) : Trace × Except String OutputItem :=
  match buildToolsForm a p binary with
  | .error e => (⟨[], []⟩, .error e)
  | .ok fd =>
    match davixRequest env.creds
        { method := "POST", url := "/v1/tools", body := .form fd } with
    | .error e => (⟨[], []⟩, .error e)
    | .ok req => (⟨[req], []⟩, .ok { json := env.respond req })

/-- One iteration of the `for (itemIndex …)` loop. -/
def processItem (env : Env) (item : ItemCfg) :
    Trace × Except String OutputItem :=
  match item.cfg with
  | .h2i a p => processH2i env a p
  | .image a p => processImage env a p item.binary
  | .pdf a p => processPdf env a p item.binary
  | .tools a p => processTools env a p item.binary

/-- `execute` (lines 891–1409): process the items in input order, appending
one output per item (`out.push`); a thrown error aborts the whole run. -/
def execute (env : Env) : List ItemCfg → Except String (List OutputItem)
  | [] => .ok []
  | item :: rest =>
    match (processItem env item).2 with
    | .error e => .error e
    | .ok o =>
      match execute env rest with
      | .error e => .error e
      | .ok os => .ok (o :: os)

/-- The part `attachFiles` pushes for `name` when the item provides the
binary entry, with a dummy entry in the (hypothesis-excluded) missing
case. -/
def expectedPart (fieldName : String) (binary : BinaryMap) (name : String) :
    FilePart :=
  mkFilePart fieldName name ((lookupBinary binary name).getD ⟨"", none, none⟩)

/-! ## Shared lemmas about the form-data object -/

theorem fdGet_fdSet_self (fd : FormData) (k : String) (v : FormVal) :
    fdGet (fdSet fd k v) k = some v := by
  induction fd with
  | nil => simp [fdSet, fdGet]
  | cons hd tl ih =>
    obtain ⟨k', v'⟩ := hd
    by_cases h : k' = k
    · simp [fdSet, fdGet, h]
    · simp [fdSet, fdGet, h, ih]

theorem fdGet_fdSet_ne (fd : FormData) (k k' : String) (v : FormVal)
    (h : k' ≠ k) : fdGet (fdSet fd k v) k' = fdGet fd k' := by
  have h' : ¬ k = k' := fun hh => h hh.symm
  induction fd with
  | nil => simp [fdSet, fdGet, h']
  | cons hd tl ih =>
    obtain ⟨k₀, v₀⟩ := hd
    by_cases h₀ : k₀ = k
    · subst h₀
      simp [fdSet, fdGet, h']
    · simp [fdSet, fdGet, h₀, ih]

theorem fdParts_fdPushFile_self (fd : FormData) (k : String) (p : FilePart) :
    fdParts (fdPushFile fd k p) k = fdParts fd k ++ [p] := by
  unfold fdPushFile fdParts
  cases h : fdGet fd k with
  | none => simp [h, fdGet_fdSet_self]
  | some v =>
    cases v <;> simp [h, fdGet_fdSet_self]

theorem fdParts_fdPushFile_ne (fd : FormData) (k k' : String) (p : FilePart)
    (h : k' ≠ k) : fdParts (fdPushFile fd k p) k' = fdParts fd k' := by
  unfold fdPushFile fdParts
  rw [fdGet_fdSet_ne _ _ _ _ h]

theorem fdGet_setNumber_self (fd : FormData) (k : String) (v : Int) :
    fdGet (setNumber fd k v) k =
      if v = 0 then fdGet fd k else some (.str (toString v)) := by
  unfold setNumber
  by_cases h : v = 0 <;> simp [h, fdGet_fdSet_self]

theorem fdGet_setNumber_ne (fd : FormData) (k k' : String) (v : Int)
    (h : k' ≠ k) : fdGet (setNumber fd k v) k' = fdGet fd k' := by
  unfold setNumber
  by_cases hv : v = 0 <;> simp [hv, fdGet_fdSet_ne _ _ _ _ h]

theorem fdGet_setString_ne (fd : FormData) (k k' : String) (v : String)
    (h : k' ≠ k) : fdGet (setString fd k v) k' = fdGet fd k' := by
  unfold setString
  by_cases hv : v = "" <;> simp [hv, fdGet_fdSet_ne _ _ _ _ h]

theorem fdGet_setBool_ne (fd : FormData) (k k' : String) (v : Bool)
    (h : k' ≠ k) : fdGet (setBool fd k v) k' = fdGet fd k' := by
  unfold setBool
  exact fdGet_fdSet_ne _ _ _ _ h

/-! ## Shared concrete fixtures -/

def demoBin : BinaryMap := [("data", { data := "buf" })]

def demoBin2 : BinaryMap :=
  [("a", { data := "A", fileName := some "photo.png", mimeType := some "image/png" }),
   ("b", { data := "B" })]

def demoCreds : Creds := { baseUrl := "https://api.example.com", apiKey := "k" }

def multiResultResponse : JVal :=
  .obj [("results", .arr [.obj [("url", .str "https://x/a.png")],
                          .obj [("url", .str "https://x/b.png")]])]

def demoEnv : Env :=
  { creds := demoCreds,
    respond := fun _ => multiResultResponse,
    download := fun _ => { data := "bytes", mimeType := some "image/png" } }

def noUrlResponse : JVal :=
  .obj [("status", .str "ok"),
        ("results", .arr [.obj [("url", .str "")], .obj [("ok", .bool true)]])]

def noUrlEnv : Env :=
  { creds := demoCreds,
    respond := fun _ => noUrlResponse,
    download := fun _ => { data := "bytes", mimeType := none } }

def itemsW : List ItemCfg := [⟨.h2i .image {}, []⟩, ⟨.h2i .pdf {}, []⟩]

def outW : List OutputItem :=
  [{ json := multiResultResponse }, { json := multiResultResponse }]

/-! ## Support lemmas -/

theorem attachNamed_parts (fieldName : String) (binary : BinaryMap) :
    ∀ (names : List String) (fd : FormData),
      (∀ n ∈ names, (lookupBinary binary n).isSome = true) →
      attachNamed fieldName binary names fd =
        .ok ((names.map (expectedPart fieldName binary)).foldl
          (fun acc p => fdPushFile acc fieldName p) fd) := by
  intro names
  induction names with
  | nil => intro fd _; rfl
  | cons n rest ih =>
    intro fd h
    have hn := h n (List.mem_cons_self n rest)
    obtain ⟨e, he⟩ := Option.isSome_iff_exists.mp hn
    have hrec := ih (fdPushFile fd fieldName (mkFilePart fieldName n e))
      (fun m hm => h m (List.mem_cons_of_mem _ hm))
    simp only [attachNamed, he, List.map_cons, List.foldl_cons]
    rw [hrec]
    simp [expectedPart, he]

theorem fdParts_foldl_push (fieldName : String) (ps : List FilePart) :
    ∀ fd, fdParts (ps.foldl (fun acc p => fdPushFile acc fieldName p) fd) fieldName =
      fdParts fd fieldName ++ ps := by
  induction ps with
  | nil => intro fd; simp
  | cons p rest ih =>
    intro fd
    simp only [List.foldl_cons]
    rw [ih, fdParts_fdPushFile_self]
    simp

theorem firstFromResults_none (rs : List JVal)
    (h : ∀ r ∈ rs, resultEntryUrl r = none ∧ ∀ s, r ≠ .str s) :
    firstFromResults rs = none := by
  induction rs with
  | nil => rfl
  | cons r rest ih =>
    obtain ⟨hu, hs⟩ := h r (List.mem_cons_self r rest)
    have hrec := ih (fun x hx => h x (List.mem_cons_of_mem _ hx))
    simp only [firstFromResults, hu]
    cases r with
    | str s => exact absurd rfl (hs s)
    | num n => exact hrec
    | bool b => exact hrec
    | null => exact hrec
    | arr xs => exact hrec
    | obj fs => exact hrec

theorem gatherFirstUrl_eq_none (response : JVal)
    (hurl : ∀ s, lookupField response "url" ≠ some (.str s))
    (hres : ∀ rs, lookupField response "results" = some (.arr rs) →
      ∀ r ∈ rs, resultEntryUrl r = none ∧ ∀ s, r ≠ .str s) :
    gatherFirstUrl response = none := by
  have hrest : (match lookupField response "results" with
      | some (.arr rs) => firstFromResults rs
      | _ => none : Option String) = none := by
    cases hr : lookupField response "results" with
    | none => rfl
    | some w =>
      cases w with
      | arr rs => exact firstFromResults_none rs (hres rs hr)
      | str s => rfl
      | num n => rfl
      | bool b => rfl
      | null => rfl
      | obj fs => rfl
  unfold gatherFirstUrl
  cases hu : lookupField response "url" with
  | none => exact hrest
  | some v =>
    cases v with
    | str s => exact absurd hu (hurl s)
    | num n => exact hrest
    | bool b => exact hrest
    | null => exact hrest
    | arr xs => exact hrest
    | obj fs => exact hrest


/-! ## Claim theorems (scratch) -/

/-- Claim C8: every boolean flag sent in a multipart form is serialized by
`toBoolString` to the literal string "true" when the flag is true and
"false" when it is false, so `toBoolString` maps booleans into
{"true", "false"} with result "true" iff the input is `true`; `setBool`
stores exactly that string under the flag's field name. -/
theorem toBoolString_bool_serialization (b : Bool) (fd : FormData) (name : String) :
    toBoolString (.bool b) = (if b then "true" else "false") ∧
    (toBoolString (.bool b) = "true" ∨ toBoolString (.bool b) = "false") ∧
    ((toBoolString (.bool b) = "true") ↔ b = true) ∧
    fdGet (setBool fd name b) name = some (.str (toBoolString (.bool b))) := by
  refine ⟨rfl, ?_, ?_, ?_⟩
  · cases b
    · exact .inr rfl
    · exact .inl rfl
  · cases b <;> simp [toBoolString]
  · unfold setBool
    exact fdGet_fdSet_self fd name _

/-- Claim C6: for the response
`{ results: [{url: "https://x/a.png"}, {url: "https://x/b.png"}] }` with a
binary download requested, exactly the first URL is selected by the shared
download step, and the h2i branch records exactly one download, of that
first URL. -/
theorem first_url_only_downloaded :
    requireFirstUrl multiResultResponse = .ok "https://x/a.png" ∧
    (processH2i demoEnv .image { downloadBinary := true }).1.downloads =
      ["https://x/a.png"] :=
  ⟨rfl, rfl⟩

/-- Counterexample to claim C2 as stated: fields whose user-supplied value
equals a non-zero declared default are NOT omitted. At the declared
defaults, image/compress sends quality="82", pdf/to-images sends dpi="150",
and image/watermark sends watermarkFontSize="24", where C2 requires each to
be absent. -/
theorem numeric_default_still_sent_cex :
    (buildImageForm .compress {} demoBin).map (fun fd => fdGet fd "quality") =
      .ok (some (.str "82")) ∧
    (buildPdfForm .toImages {} demoBin).map (fun fd => fdGet fd "dpi") =
      .ok (some (.str "150")) ∧
    (buildImageForm .watermark {} demoBin).map
        (fun fd => fdGet fd "watermarkFontSize") =
      .ok (some (.str "24")) :=
  ⟨rfl, rfl, rfl⟩

/-- Claim C2 (amended): `setNumber` includes an optional numeric field iff
its value is nonzero (the omission test is `value !== 0`, not
"value equals the declared default"): the stored value is `String(value)`,
and the three fields C2 names (quality, dpi, watermarkFontSize) are present
in their operation's form exactly when nonzero — in particular they are
sent when left at their non-zero declared defaults. -/
theorem numeric_field_omitted_iff_zero (q d w : Int) (fd0 : FormData)
    (name : String) (v : Int) :
    fdGet (setNumber fd0 name v) name =
      (if v = 0 then fdGet fd0 name else some (.str (toString v))) ∧
    (buildImageForm .compress { quality := q } demoBin).map
        (fun fd => fdGet fd "quality") =
      .ok (if q = 0 then none else some (.str (toString q))) ∧
    (buildPdfForm .toImages { dpi := d } demoBin).map
        (fun fd => fdGet fd "dpi") =
      .ok (if d = 0 then none else some (.str (toString d))) ∧
    (buildImageForm .watermark { watermarkFontSize := w } demoBin).map
        (fun fd => fdGet fd "watermarkFontSize") =
      .ok (if w = 0 then none else some (.str (toString w))) := by
  refine ⟨fdGet_setNumber_self fd0 name v, ?_, ?_, ?_⟩
  · have h1 : buildImageForm .compress { quality := q } demoBin =
        .ok (setBool (setString (fdSet (setNumber
          [("action", .str "compress"),
           ("images", .fileParts
             [{ data := "buf", filename := "images-data", contentType := none }]),
           ("format", .str "webp")] "quality" q)
          "colorSpace" (.str "srgb")) "backgroundColor" "")
          "keepMetadata" false) := rfl
    rw [h1]
    simp only [Except.map]
    refine congrArg Except.ok ?_
    rw [fdGet_setBool_ne _ _ _ _ (by decide),
        fdGet_setString_ne _ _ _ _ (by decide),
        fdGet_fdSet_ne _ _ _ _ (by decide),
        fdGet_setNumber_self]
    by_cases hq : q = 0
    · simp [hq]
      rfl
    · simp [hq]
  · have h2 : buildPdfForm .toImages { dpi := d } demoBin =
        .ok (setNumber
          [("action", .str "to-images"),
           ("files", .fileParts
             [{ data := "buf", filename := "files-data", contentType := none }]),
           ("pages", .str "all"), ("toFormat", .str "png")] "dpi" d) := rfl
    rw [h2]
    simp only [Except.map]
    refine congrArg Except.ok ?_
    rw [fdGet_setNumber_self]
    by_cases hd : d = 0
    · simp [hd]
      rfl
    · simp [hd]
  · have h3 : buildImageForm .watermark { watermarkFontSize := w } demoBin =
        .ok (setBool (setNumber (setNumber (fdSet (setString (setNumber
          [("action", .str "watermark"),
           ("images", .fileParts
             [{ data := "buf", filename := "images-data", contentType := none }]),
           ("format", .str "webp")] "watermarkFontSize" w)
          "watermarkColor" "#000000")
          "watermarkPosition" (.str "center"))
          "watermarkMargin" 8) "watermarkScale" 1)
          "keepMetadata" false) := rfl
    rw [h3]
    simp only [Except.map]
    refine congrArg Except.ok ?_
    rw [fdGet_setBool_ne _ _ _ _ (by decide),
        fdGet_setNumber_ne _ _ _ _ (by decide),
        fdGet_setNumber_ne _ _ _ _ (by decide),
        fdGet_fdSet_ne _ _ _ _ (by decide),
        fdGet_setString_ne _ _ _ _ (by decide),
        fdGet_setNumber_self]
    by_cases hw : w = 0
    · simp [hw]
      rfl
    · simp [hw]


/-- Claim C1: for an input item with resource=h2i, operation=image,
html="<p>hi</p>", and the declared defaults for the remaining fields
(css="", width=1000, height=1500, format="png"), the node issues exactly
one POST to `/v1/h2i` (prefixed by the credential base URL, with the
`x-api-key` header) whose JSON body is
action=image, html="<p>hi</p>", css="", width=1000, height=1500,
format="png". -/
theorem h2i_image_default_request (env : Env)
    (hbase : stripTrailingSlash env.creds.baseUrl ≠ "")
    (hkey : env.creds.apiKey ≠ "") :
    (processH2i env .image
      { html := "<p>hi</p>", css := "", width := 1000, height := 1500,
        format := "png" }).1.requests =
      [{ method := "POST",
         url := stripTrailingSlash env.creds.baseUrl ++ "/v1/h2i",
         headers := [("x-api-key", env.creds.apiKey)],
         body := .jsonBody (.obj [("action", .str "image"),
           ("html", .str "<p>hi</p>"), ("css", .str ""),
           ("width", .num 1000), ("height", .num 1500),
           ("format", .str "png")]) }] := by
  unfold processH2i davixRequest
  simp only []
  rw [if_neg hbase, if_neg hkey]
  simp [buildH2iBody, ensureLeadingSlash, startsWithSlash]

theorem h2i_image_default_request_witness :
    stripTrailingSlash demoCreds.baseUrl ≠ "" ∧ demoCreds.apiKey ≠ "" ∧
    (processH2i demoEnv .image
      { html := "<p>hi</p>", css := "", width := 1000, height := 1500,
        format := "png" }).1.requests =
      [{ method := "POST",
         url := stripTrailingSlash demoEnv.creds.baseUrl ++ "/v1/h2i",
         headers := [("x-api-key", demoEnv.creds.apiKey)],
         body := .jsonBody (.obj [("action", .str "image"),
           ("html", .str "<p>hi</p>"), ("css", .str ""),
           ("width", .num 1000), ("height", .num 1500),
           ("format", .str "png")]) }] :=
  ⟨by decide, by decide,
   h2i_image_default_request demoEnv (by decide) (by decide)⟩

/-- Claim C3: a comma-separated binary-property list with N non-blank
names produces exactly N multipart file parts under the resource's file
field; each part carries the buffer's original fileName and mimeType when
the item's binary metadata provides them, and otherwise the synthesized
name `<fieldName>-<propertyName>` (see `expectedPart`/`mkFilePart`). -/
theorem attachFiles_part_list (fieldName propList : String) (binary : BinaryMap)
    (fd : FormData)
    (hnames : ∀ n ∈ splitNames propList, (lookupBinary binary n).isSome = true)
    (hne : splitNames propList ≠ []) :
    (attachFiles fieldName propList binary fd).map
        (fun fd2 => fdParts fd2 fieldName) =
      .ok (fdParts fd fieldName ++
        (splitNames propList).map (expectedPart fieldName binary)) ∧
    (attachFiles fieldName propList binary fd).map
        (fun fd2 => (fdParts fd2 fieldName).length) =
      .ok ((fdParts fd fieldName).length + (splitNames propList).length) := by
  have hrun := attachNamed_parts fieldName binary (splitNames propList) fd hnames
  have hfold := fdParts_foldl_push fieldName
    ((splitNames propList).map (expectedPart fieldName binary)) fd
  have hif : ¬ (splitNames propList).length = 0 := by
    simpa [List.length_eq_zero] using hne
  constructor
  · unfold attachFiles
    rw [if_neg hif, hrun]
    simp only [Except.map]
    rw [hfold]
  · unfold attachFiles
    rw [if_neg hif, hrun]
    simp only [Except.map]
    rw [hfold]
    simp

theorem attachFiles_part_list_witness :
    (∀ n ∈ splitNames "a, b", (lookupBinary demoBin2 n).isSome = true) ∧
    splitNames "a, b" ≠ [] ∧
    (attachFiles "images" "a, b" demoBin2 [("action", .str "format")]).map
        (fun fd2 => fdParts fd2 "images") =
      .ok (fdParts [("action", .str "format")] "images" ++
        (splitNames "a, b").map (expectedPart "images" demoBin2)) :=
  ⟨by decide, by decide,
   (attachFiles_part_list "images" "a, b" demoBin2 [("action", .str "format")]
     (by decide) (by decide)).1⟩

/-- Claim C4: whatever request options any resource's branch passes in, if
the credential base URL is empty after stripping a trailing slash, or the
API key is empty, `davixRequest` fails with the corresponding descriptive
configuration error and never returns a request to hand to the HTTP
helper. -/
theorem davixRequest_missing_credentials (creds : Creds)
    (options : HttpRequestOptions)
    (h : stripTrailingSlash creds.baseUrl = "" ∨ creds.apiKey = "") :
    (davixRequest creds options = .error "Missing Base URL in credentials." ∨
     davixRequest creds options = .error "Missing API Key in credentials.") ∧
    ∀ req, davixRequest creds options ≠ .ok req := by
  unfold davixRequest
  simp only []
  by_cases hb : stripTrailingSlash creds.baseUrl = ""
  · rw [if_pos hb]
    exact ⟨.inl rfl, fun req hcon => by cases hcon⟩
  · have hk : creds.apiKey = "" := h.resolve_left hb
    rw [if_neg hb, if_pos hk]
    exact ⟨.inr rfl, fun req hcon => by cases hcon⟩

theorem davixRequest_missing_credentials_witness :
    (stripTrailingSlash "/" = "" ∨ ("key" : String) = "") ∧
    (davixRequest ⟨"/", "key"⟩ { method := "POST", url := "/v1/h2i" } =
        .error "Missing Base URL in credentials." ∨
     davixRequest ⟨"/", "key"⟩ { method := "POST", url := "/v1/h2i" } =
        .error "Missing API Key in credentials.") :=
  ⟨.inl (by decide),
   (davixRequest_missing_credentials ⟨"/", "key"⟩
     { method := "POST", url := "/v1/h2i" } (.inl (by decide))).1⟩

/-- Claim C5: when a binary download is requested (downloadBinary /
imageDownloadBinary / pdfDownloadBinary) and the response has no string
`url` field, no results entry with a truthy `url`, and no plain-string
results entry, the shared download step fails with "No URL returned to
download.", and each of the h2i, image and pdf branches records no
download and produces no output item. -/
theorem download_without_url_errors (response : JVal)
    (hurl : ∀ s, lookupField response "url" ≠ some (.str s))
    (hres : ∀ rs, lookupField response "results" = some (.arr rs) →
      ∀ r ∈ rs, resultEntryUrl r = none ∧ ∀ s, r ≠ .str s) :
    requireFirstUrl response = .error "No URL returned to download." ∧
    (∀ (env : Env) (a : H2iAction) (p : H2iParams),
      (∀ r, env.respond r = response) → p.downloadBinary = true →
      (processH2i env a p).1.downloads = [] ∧
      ∀ o, (processH2i env a p).2 ≠ .ok o) ∧
    (∀ (env : Env) (a : ImageAction) (p : ImageParams) (bin : BinaryMap),
      (∀ r, env.respond r = response) →
      effectiveImageDownload a p.imageDownloadBinary = true →
      (processImage env a p bin).1.downloads = [] ∧
      ∀ o, (processImage env a p bin).2 ≠ .ok o) ∧
    (∀ (env : Env) (a : PdfAction) (p : PdfParams) (bin : BinaryMap),
      (∀ r, env.respond r = response) → p.pdfDownloadBinary = true →
      (processPdf env a p bin).1.downloads = [] ∧
      ∀ o, (processPdf env a p bin).2 ≠ .ok o) := by
  have hnone := gatherFirstUrl_eq_none response hurl hres
  have hreq : requireFirstUrl response = .error "No URL returned to download." := by
    unfold requireFirstUrl
    rw [hnone]
  refine ⟨hreq, ?_, ?_, ?_⟩
  · intro env a p hresp hflag
    unfold processH2i
    simp only []
    split
    · exact ⟨by simp, fun o hcon => by cases hcon⟩
    · simp only [hresp, hflag, if_true, hreq]
      exact ⟨by simp, fun o hcon => by cases hcon⟩
  · intro env a p bin hresp hflag
    unfold processImage
    simp only []
    split
    · exact ⟨by simp, fun o hcon => by cases hcon⟩
    · split
      · exact ⟨by simp, fun o hcon => by cases hcon⟩
      · simp only [hresp, hflag, if_true, hreq]
        exact ⟨by simp, fun o hcon => by cases hcon⟩
  · intro env a p bin hresp hflag
    unfold processPdf
    simp only []
    split
    · exact ⟨by simp, fun o hcon => by cases hcon⟩
    · split
      · exact ⟨by simp, fun o hcon => by cases hcon⟩
      · simp only [hresp, hflag, if_true, hreq]
        exact ⟨by simp, fun o hcon => by cases hcon⟩

theorem download_without_url_errors_witness :
    requireFirstUrl noUrlResponse = .error "No URL returned to download." ∧
    (processH2i noUrlEnv .image { downloadBinary := true }).1.downloads = [] := by
  have hurl : ∀ s, lookupField noUrlResponse "url" ≠ some (.str s) := by
    intro s hcon
    simp [noUrlResponse, lookupField] at hcon
  have hres : ∀ rs, lookupField noUrlResponse "results" = some (.arr rs) →
      ∀ r ∈ rs, resultEntryUrl r = none ∧ ∀ s, r ≠ .str s := by
    intro rs hrs
    have h1 : some (JVal.arr [JVal.obj [("url", JVal.str "")],
        JVal.obj [("ok", JVal.bool true)]]) = some (JVal.arr rs) := hrs
    have hrs2 : rs = [JVal.obj [("url", JVal.str "")],
        JVal.obj [("ok", JVal.bool true)]] := by
      injection h1 with h2
      injection h2 with h3
      exact h3.symm
    subst hrs2
    intro r hr
    have hr2 : r = JVal.obj [("url", .str "")] ∨
        r = JVal.obj [("ok", .bool true)] := by
      simpa using hr
    rcases hr2 with rfl | rfl
    · exact ⟨rfl, fun s hcon => by cases hcon⟩
    · exact ⟨rfl, fun s hcon => by cases hcon⟩
  have T := download_without_url_errors noUrlResponse hurl hres
  exact ⟨T.1, (T.2.1 noUrlEnv .image { downloadBinary := true }
    (fun _ => rfl) rfl).1⟩

/-- Claim C7: for the image, pdf and tools resources, a binary-property
list with no non-blank names makes the item fail with "No binary property
names provided." with an empty request trace — no HTTP request is issued
for that item. -/
theorem blank_binary_props_error (env : Env) (propList : String)
    (h : splitNames propList = []) :
    (∀ (a : ImageAction) (p : ImageParams) (bin : BinaryMap),
      p.imageBinaryProps = propList →
      processImage env a p bin =
        (⟨[], []⟩, .error "No binary property names provided.")) ∧
    (∀ (a : PdfAction) (p : PdfParams) (bin : BinaryMap),
      p.pdfBinaryProps = propList →
      processPdf env a p bin =
        (⟨[], []⟩, .error "No binary property names provided.")) ∧
    (∀ (a : ToolsAction) (p : ToolsParams) (bin : BinaryMap),
      p.toolsBinaryProps = propList →
      processTools env a p bin =
        (⟨[], []⟩, .error "No binary property names provided.")) := by
  have haf : ∀ (fieldName : String) (bin : BinaryMap) (fd : FormData),
      attachFiles fieldName propList bin fd =
        .error "No binary property names provided." := by
    intro fieldName bin fd
    unfold attachFiles
    rw [h]
    rfl
  refine ⟨?_, ?_, ?_⟩
  · intro a p bin hp
    unfold processImage buildImageForm
    simp only []
    rw [hp, haf]
  · intro a p bin hp
    unfold processPdf buildPdfForm
    simp only []
    rw [hp, haf]
  · intro a p bin hp
    unfold processTools buildToolsForm
    simp only []
    rw [hp, haf]

theorem blank_binary_props_error_witness :
    splitNames " , " = [] ∧
    processImage demoEnv .format { imageBinaryProps := " , " } [] =
      (⟨[], []⟩, .error "No binary property names provided.") :=
  ⟨by decide,
   (blank_binary_props_error demoEnv " , " (by decide)).1 .format
     { imageBinaryProps := " , " } [] rfl⟩

/-- Claim C9: `execute` processes items sequentially in input order and
appends exactly one output per input item: a successful run returns as
many outputs as inputs, and the i-th output is the result of processing
the i-th input item. -/
theorem execute_one_output_per_item (env : Env) (items : List ItemCfg)
    (out : List OutputItem) (h : execute env items = .ok out) :
    out.length = items.length ∧
    ∀ i (hi : i < items.length) (ho : i < out.length),
      (processItem env (items.get ⟨i, hi⟩)).2 = .ok (out.get ⟨i, ho⟩) := by
  induction items generalizing out with
  | nil =>
    unfold execute at h
    cases h
    exact ⟨rfl, fun i hi => absurd hi (Nat.not_lt_zero i)⟩
  | cons item rest ih =>
    unfold execute at h
    cases hp : (processItem env item).2 with
    | error e => rw [hp] at h; cases h
    | ok o =>
      rw [hp] at h
      cases hr : execute env rest with
      | error e => rw [hr] at h; cases h
      | ok os =>
        rw [hr] at h
        cases h
        obtain ⟨hlen, hidx⟩ := ih os hr
        refine ⟨by simp [hlen], ?_⟩
        intro i hi ho
        cases i with
        | zero => simpa using hp
        | succ j =>
          exact hidx j (by simpa using hi) (by simpa using ho)

theorem execute_one_output_per_item_witness :
    execute demoEnv itemsW = .ok outW ∧ outW.length = itemsW.length :=
  ⟨rfl, (execute_one_output_per_item demoEnv itemsW outW rfl).1⟩

/-- Claim C10: for resource=image with operation=metadata the download
step is never taken: even with imageDownloadBinary=true no download is
recorded, and the output item carries no binary property (JSON only). -/
theorem image_metadata_never_downloads (env : Env) (p : ImageParams)
    (bin : BinaryMap) (_h : p.imageDownloadBinary = true) :
    (processImage env .metadata p bin).1.downloads = [] ∧
    ∀ o, (processImage env .metadata p bin).2 = .ok o → o.binary = none := by
  unfold processImage
  simp only []
  split
  · exact ⟨rfl, fun o ho => by cases ho⟩
  · split
    · exact ⟨rfl, fun o ho => by cases ho⟩
    · rw [show effectiveImageDownload .metadata p.imageDownloadBinary = false
        from rfl]
      simp only [Bool.false_eq_true, if_false]
      exact ⟨trivial, fun o ho => by cases ho; rfl⟩

theorem image_metadata_never_downloads_witness :
    ({ imageDownloadBinary := true : ImageParams }).imageDownloadBinary = true ∧
    (processImage demoEnv .metadata { imageDownloadBinary := true }
      demoBin).1.downloads = [] :=
  ⟨rfl, (image_metadata_never_downloads demoEnv
    { imageDownloadBinary := true } demoBin rfl).1⟩

end DavixH2I
